import Mathlib

/-!
# Calendar synchronization core — verification of the specification against the source

This file is a shallow embedding, in Lean 4, of the parts of the backend that the
specification's testable properties talk about:

* `TokenService` (`src/backend/src/services/tokenService.ts`): the credential vault
  (`encrypt` / `decrypt`), the persisted-token store (`storeTokens` / `getStoredTokens`),
  proactive refresh (`refreshGoogleToken`) and the validity guarantee (`ensureValidToken`).
* `CalendarService` (`src/backend/src/services/calendarService.ts`): the retry executor
  (`executeWithRetry` and the error classifiers), the event query (`getEvents`),
  write-through creation (`createEvent`, `validateEventInput`), and the sync engine
  (`syncWithGoogle`, `performFullSync`, `performIncrementalSync`, `updateSyncState`).

Modelling conventions:

* JavaScript strings that must be split or inspected character by character
  (ciphertexts, plaintexts) are modelled as `List Char`; other strings stay `String`.
* `Date` values are epoch milliseconds (`Int`).
* Exceptions are modelled with `Except`: each `throw new XError(msg)` becomes an
  `AppError` value, and every `try`/`catch` is an explicit `match`.
* External systems (the AES cipher of node's `crypto`, Google's OAuth and Calendar
  endpoints, the wall clock) are parameters of the embedded functions; their
  library-documented contracts (e.g. that deciphering inverts enciphering) appear as
  hypotheses where a theorem needs them.
* Database tables are association lists / field records; each SQL statement of the
  source is translated into the corresponding pure update, statement by statement.
* The unbounded `do … while (pageToken)` pagination loops take an explicit fuel
  argument; every claim is stated for arbitrary fuel or supplies enough of it.
-/

deriving instance DecidableEq for Except

namespace CalendarApp

/-! ## JavaScript string helpers -/

/-- Extend the first fragment of a split result with one more character. -/
def consHead (a : Char) : List (List Char) → List (List Char)
  | [] => [[]]
  | h :: t => (a :: h) :: t

/-- `String.prototype.split(sep)` for a one-character separator, on the character-list
model of a JS string.  `splitOnChar c s` always returns a non-empty list of the
(possibly empty) fragments of `s` between occurrences of `c`. -/
def splitOnChar (c : Char) : List Char → List (List Char)
  | [] => [[]]
  | a :: as =>
    if a = c then [] :: splitOnChar c as else consHead a (splitOnChar c as)

/-- Splitting a separator-free string yields it back as a single fragment. -/
theorem splitOnChar_of_not_mem (c : Char) (s : List Char) (h : c ∉ s) :
    splitOnChar c s = [s] := by
  induction s with
  | nil => rfl
  | cons a as ih =>
    have hac : a ≠ c := fun hx => h (by simp [hx])
    have has : c ∉ as := fun hmem => h (List.mem_cons_of_mem _ hmem)
    simp only [splitOnChar, if_neg hac, ih has, consHead]

/-- Splitting a string that starts with a separator-free fragment followed by the
separator peels off exactly that fragment. -/
theorem splitOnChar_append (c : Char) (a b : List Char) (ha : c ∉ a) :
    splitOnChar c (a ++ c :: b) = a :: splitOnChar c b := by
  induction a with
  | nil => simp [splitOnChar]
  | cons x xs ih =>
    have hxc : x ≠ c := fun hx => ha (by simp [hx])
    have hxs : c ∉ xs := fun hmem => ha (List.mem_cons_of_mem _ hmem)
    have hstep : splitOnChar c ((x :: xs) ++ c :: b) =
        consHead x (splitOnChar c (xs ++ c :: b)) := by
      simp only [List.cons_append, splitOnChar, if_neg hxc]
      rfl
    rw [hstep, ih hxs]
    rfl

/-- Does `text` start with `pat`? -/
def listStartsWith : List Char → List Char → Bool
  | _, [] => true
  | [], _ :: _ => false
  | t :: ts, p :: ps => t = p && listStartsWith ts ps

/-- Is `pat` a contiguous substring of `text`? -/
def listContainsSub : List Char → List Char → Bool
  | [], pat => pat.isEmpty
  | t :: ts, pat => listStartsWith (t :: ts) pat || listContainsSub ts pat

/-- `x.includes(y)` on JS strings (substring containment; the empty string is contained
in everything, as in JS). -/
def jsIncludes (s pat : String) : Bool :=
  listContainsSub s.data pat.data

/-- `m?.includes(y)` through optional chaining: an absent string contains nothing. -/
def optIncludes (s : Option String) (pat : String) : Bool :=
  match s with
  | none => false
  | some s => jsIncludes s pat

/-- `String.prototype.trim()`: strip whitespace from both ends. -/
def jsTrim (s : String) : String :=
  ⟨((s.data.dropWhile Char.isWhitespace).reverse.dropWhile Char.isWhitespace).reverse⟩

/-- The sixteen lowercase hex digits, as produced by `Buffer.toString('hex')`. -/
def hexDigit (n : Nat) : Char :=
  match n with
  | 0 => '0' | 1 => '1' | 2 => '2' | 3 => '3' | 4 => '4' | 5 => '5' | 6 => '6' | 7 => '7'
  | 8 => '8' | 9 => '9' | 10 => 'a' | 11 => 'b' | 12 => 'c' | 13 => 'd' | 14 => 'e'
  | _ => 'f'

/-- `Buffer.toString('hex')`: each byte becomes two hex digits. -/
def bytesToHex (bs : List Nat) : List Char :=
  bs.flatMap fun b => [hexDigit (b / 16 % 16), hexDigit (b % 16)]

theorem hexDigit_ne_colon (n : Nat) : hexDigit n ≠ ':' := by
  unfold hexDigit
  rcases n with _ | _ | _ | _ | _ | _ | _ | _ | _ | _ | _ | _ | _ | _ | _ | n <;> simp

theorem colon_not_mem_bytesToHex (bs : List Nat) : ':' ∉ bytesToHex bs := by
  intro hmem
  simp only [bytesToHex, List.mem_flatMap] at hmem
  obtain ⟨b, _, hb⟩ := hmem
  simp only [List.mem_cons, List.not_mem_nil, or_false] at hb
  rcases hb with h | h
  · exact hexDigit_ne_colon _ h.symm
  · exact hexDigit_ne_colon _ h.symm

/-- A lowercase hex digit. -/
def isHexChar (c : Char) : Bool :=
  ('0' ≤ c && c ≤ '9') || ('a' ≤ c && c ≤ 'f')

/-- A string of hex digits (the form of the IV prefix that `encrypt` emits). -/
def isHexStr (s : List Char) : Bool :=
  s.all isHexChar

theorem isHexStr_no_colon {s : List Char} (h : isHexStr s = true) : ':' ∉ s := by
  intro hmem
  exact absurd (List.all_eq_true.mp h _ hmem) (by decide)

/-! ## Error model

`AppError` collects the error classes thrown by the two services
(`middleware/errorHandler` classes), plus `js e` for a raw upstream error object that
`executeWithRetry` rethrows unchanged (`throw lastError`). -/

/-- A JS `error.code`: HTTP status numbers and node error strings such as
`'ECONNRESET'`. -/
inductive JsCode where
  | num (n : Int)
  | str (s : String)
deriving Repr, DecidableEq

/-- The shape of an upstream error object as inspected by the classifiers of
`CalendarService`: `error?.code`, `error?.message`, and the `retry-after` response
header (seconds). -/
structure JsErr where
  code : Option JsCode := none
  message : Option String := none
  retryAfter : Option Nat := none
deriving Repr, DecidableEq

/-- Errors surfaced by the services: `InternalServerError`, `UnauthorizedError`,
`BadRequestError`, `NotFoundError`, or a raw upstream error rethrown by the retry
executor. -/
inductive AppError where
  | internal (msg : String)
  | unauthorized (msg : String)
  | badRequest (msg : String)
  | notFound (msg : String)
  | js (e : JsErr)
deriving Repr, DecidableEq

/-- `error?.code` of a surfaced `AppError`: the error classes constructed with a
message carry no `code` field. -/
def AppError.errCode : AppError → Option JsCode
  | .js e => e.code
  | _ => none

/-- `error?.message` of a surfaced `AppError`. -/
def AppError.errMessage : AppError → Option String
  | .internal m => some m
  | .unauthorized m => some m
  | .badRequest m => some m
  | .notFound m => some m
  | .js e => e.message

/-! ## Retry executor (`CalendarService.executeWithRetry` and classifiers) -/

/-- `CalendarService.isRateLimitError`. -/
def isRateLimitError (e : JsErr) : Bool :=
  e.code = some (.num 429) ||
  optIncludes e.message "rateLimitExceeded" ||
  optIncludes e.message "userRateLimitExceeded"

/-- `CalendarService.isQuotaExceededError`. -/
def isQuotaExceededError (e : JsErr) : Bool :=
  e.code = some (.num 403) &&
  (optIncludes e.message "quotaExceeded" || optIncludes e.message "dailyLimitExceeded")

/-- `CalendarService.isAuthError`. -/
def isAuthError (e : JsErr) : Bool :=
  e.code = some (.num 401) ||
  optIncludes e.message "invalid_grant" ||
  optIncludes e.message "unauthorized"

/-- `CalendarService.isNetworkError`. -/
def isNetworkError (e : JsErr) : Bool :=
  e.code = some (.str "ECONNRESET") ||
  e.code = some (.str "ENOTFOUND") ||
  e.code = some (.str "ETIMEDOUT") ||
  optIncludes e.message "network" ||
  optIncludes e.message "timeout"

/-- `DEFAULT_RETRY_CONFIG` (`types/calendar.ts`): `maxRetries` is the only field that
affects which value `executeWithRetry` returns (the delays only pause execution), so
only it appears in the embedding. -/
def defaultMaxRetries : Nat := 3

/-- The attempt loop of `CalendarService.executeWithRetry`.  `op` is the wrapped
upstream operation, indexed by the attempt number; `attempt` is the loop counter and
`fuel` the number of loop iterations still permitted (the source loop runs at most
`maxRetries + 1` times, so callers pass `maxRetries + 1`).

Rate-limit and network errors retry while `attempt < maxRetries` and are rethrown raw
once attempts are exhausted; quota errors become a fatal internal error; auth errors
become an unauthorized error; anything else breaks the loop and is rethrown raw. -/
def executeWithRetryGo (op : Nat → Except JsErr α) (maxRetries : Nat) :
    Nat → Nat → Except AppError α
  | _, 0 => .error (.js { message := some "Unknown error" })
  | attempt, fuel + 1 =>
    match op attempt with
    | .ok v => .ok v
    | .error e =>
      if isRateLimitError e then
        if attempt < maxRetries then executeWithRetryGo op maxRetries (attempt + 1) fuel
        else .error (.js e)
      else if isQuotaExceededError e then
        .error (.internal "Google Calendar API quota exceeded")
      else if isAuthError e then
        .error (.unauthorized "Google Calendar authentication failed")
      else if isNetworkError e then
        if attempt < maxRetries then executeWithRetryGo op maxRetries (attempt + 1) fuel
        else .error (.js e)
      else .error (.js e)

/-- `CalendarService.executeWithRetry` with the default retry policy (every call site
in the source uses `DEFAULT_RETRY_CONFIG`). -/
def executeWithRetry (op : Nat → Except JsErr α) : Except AppError α :=
  executeWithRetryGo op defaultMaxRetries 0 (defaultMaxRetries + 1)

/-! ## Credential vault (`TokenService.encrypt` / `TokenService.decrypt`)

The source builds the cipher with `crypto.createCipher('aes-256-cbc', key)` — the
deprecated password-based API, which derives key and IV deterministically from its
second argument.  The enciphering is therefore a deterministic function of the
plaintext alone; the random 16-byte IV generated by `encrypt` is only hex-encoded and
prepended as `iv:ciphertext`, and `decrypt` discards it again.

The cipher primitive is a parameter pair `cipherE`/`cipherD`: `cipherE` is
`update('utf8','hex') + final('hex')` (so its output is a hex string) and `cipherD` is
the corresponding `createDecipher` pipeline, `none` when `final` throws (bad
ciphertext). -/

/-- `TokenService.encrypt`: hex-encode the random IV bytes and prepend them,
colon-separated, to the enciphered text. -/
def encrypt (cipherE : List Char → List Char) (ivBytes : List Nat) (text : List Char) :
    List Char :=
  bytesToHex ivBytes ++ ':' :: cipherE text

/-- `TokenService.decrypt`: split on `':'`, require exactly two parts, decipher the
second part and ignore the first (the IV is never fed to the decipher).  Any failure —
wrong format or a failing `final` — is caught and surfaced as the same internal
error. -/
def decrypt (cipherD : List Char → Option (List Char)) (encryptedText : List Char) :
    Except AppError (List Char) :=
  match splitOnChar ':' encryptedText with
  | [_ivHex, enc] =>
    match cipherD enc with
    | some plain => .ok plain
    | none => .error (.internal "Failed to decrypt token")
  | _ => .error (.internal "Failed to decrypt token")

/-- C9 — Vault wrap round-trip: decrypting the ciphertext produced by `encrypt`
yields the original plaintext.  The two hypotheses are the node `crypto` contract at
the wrapped value: deciphering inverts enciphering, and the enciphered output is hex
(in particular colon-free), so the `iv:ciphertext` framing parses back into exactly
two parts. -/
theorem decrypt_encrypt_roundtrip
    (cipherE : List Char → List Char) (cipherD : List Char → Option (List Char))
    (ivBytes : List Nat) (x : List Char)
    (hinv : cipherD (cipherE x) = some x)
    (hnc : ':' ∉ cipherE x) :
    decrypt cipherD (encrypt cipherE ivBytes x) = .ok x := by
  unfold encrypt decrypt
  rw [splitOnChar_append ':' (bytesToHex ivBytes) (cipherE x) (colon_not_mem_bytesToHex ivBytes),
    splitOnChar_of_not_mem ':' (cipherE x) hnc]
  simp [hinv]

/-- C9 witness: the round-trip theorem applied at a concrete plaintext, with the
identity pipeline standing in for the cipher (it trivially satisfies the two
`crypto` contract hypotheses at this plaintext). -/
theorem decrypt_encrypt_roundtrip_witness :
    decrypt (fun l => some l) (encrypt (fun l => l) [0, 255] ['s','e','c']) =
      .ok ['s','e','c'] :=
  decrypt_encrypt_roundtrip (fun l => l) (fun l => some l) [0, 255] ['s','e','c']
    rfl (by decide)

/-- C10 — The IV prefix embedded in a wrapped token is never consulted on unwrap:
for any two hex prefixes and any payload after the colon, `decrypt` returns the same
result.  (`decrypt` splits on `':'` and hands only the second fragment to the
decipher, which was keyed without the IV.) -/
theorem decrypt_ignores_iv
    (cipherD : List Char → Option (List Char)) (i1 i2 c : List Char)
    (h1 : isHexStr i1 = true) (h2 : isHexStr i2 = true) :
    decrypt cipherD (i1 ++ ':' :: c) = decrypt cipherD (i2 ++ ':' :: c) := by
  unfold decrypt
  rw [splitOnChar_append ':' i1 c (isHexStr_no_colon h1),
    splitOnChar_append ':' i2 c (isHexStr_no_colon h2)]
  cases splitOnChar ':' c with
  | nil => rfl
  | cons h t => cases t <;> rfl

/-- C10 witness: two different hex IV prefixes in front of the same payload decrypt
to the same value. -/
theorem decrypt_ignores_iv_witness :
    decrypt (fun l => some l) (['0','0'] ++ ':' :: ['a','b']) =
      decrypt (fun l => some l) (['f','f'] ++ ':' :: ['a','b']) :=
  decrypt_ignores_iv (fun l => some l) ['0','0'] ['f','f'] ['a','b']
    (by decide) (by decide)

/-! ## Token store (`TokenService.storeTokens` / `getStoredTokens`)

The `users` table is an association list from user id to the three token columns the
service reads and writes. -/

/-- The token columns of a `users` row (`access_token`, `refresh_token`,
`token_expires_at`); the token columns hold ciphertexts. -/
structure UserRow where
  access_token : Option (List Char) := none
  refresh_token : Option (List Char) := none
  token_expires_at : Option Int := none
deriving Repr, DecidableEq

abbrev UsersTable := List (String × UserRow)

/-- The `GoogleTokens` interface of `tokenService.ts`. -/
structure GoogleTokens where
  access_token : List Char
  refresh_token : Option (List Char) := none
  expires_at : Option Int := none
  scope : Option String := none
deriving Repr, DecidableEq

/-- The `EncryptedTokens` interface of `tokenService.ts` (despite the name, the
fields returned by `getStoredTokens` hold the decrypted tokens). -/
structure EncryptedTokens where
  accessToken : List Char
  refreshToken : Option (List Char) := none
  expiresAt : Option Int := none
deriving Repr, DecidableEq

/-- Number of parameter placeholders occurring in the text of the `storeTokens`
UPDATE statement: `$1` (used both for `access_token` and for `WHERE id`), `$2`, and
`$3`. -/
def storeTokensPlaceholders : Nat := 3

/-- Number of parameters `storeTokens` binds to that statement:
`[userId, encryptedAccessToken, encryptedRefreshToken, tokens.expires_at]`. -/
def storeTokensBoundParams : Nat := 4

/-- `TokenService.storeTokens`.  The source's UPDATE reads

    SET access_token = $1, refresh_token = $2, token_expires_at = $3, …
    WHERE id = $1

while binding four parameters (`userId`, the wrapped access token, the wrapped
refresh token, the expiry).  The statement text references only `$1`–`$3`, so the
database rejects the bind of four parameters against three placeholders; the `catch`
turns that into `InternalServerError('Failed to store authentication tokens')`.
Consequently `storeTokens` never modifies the table and always fails.  (Even under a
lenient positional binding, `access_token` would receive the user id and
`token_expires_at` the wrapped refresh token — never the intended values.) -/
def storeTokens (tbl : UsersTable) (userId : String) (tokens : GoogleTokens) :
    Except AppError UsersTable :=
  if storeTokensBoundParams = storeTokensPlaceholders then
    .ok tbl
  else
    .error (.internal "Failed to store authentication tokens")

/-- `TokenService.getStoredTokens`: read the row, return `none` when the row or its
access token is absent, otherwise unwrap both tokens; any decryption failure is
caught and surfaced as one internal error. -/
def getStoredTokens (cipherD : List Char → Option (List Char)) (tbl : UsersTable)
    (userId : String) : Except AppError (Option EncryptedTokens) :=
  match tbl.lookup userId with
  | none => .ok none
  | some row =>
    match row.access_token with
    | none => .ok none
    | some ct =>
      match decrypt cipherD ct with
      | .error _ => .error (.internal "Failed to retrieve authentication tokens")
      | .ok pt =>
        match row.refresh_token with
        | none =>
          .ok (some { accessToken := pt, refreshToken := none,
                      expiresAt := row.token_expires_at })
        | some rct =>
          match decrypt cipherD rct with
          | .error _ => .error (.internal "Failed to retrieve authentication tokens")
          | .ok rpt =>
            .ok (some { accessToken := pt, refreshToken := some rpt,
                        expiresAt := row.token_expires_at })

/-- The credential object returned by Google's `refreshAccessToken`. -/
structure Credentials where
  access_token : Option (List Char) := none
  refresh_token : Option (List Char) := none
  expiry_date : Option Int := none
  scope : Option String := none
deriving Repr, DecidableEq

/-- The upstream OAuth refresh endpoint: stored refresh token in, credentials out
(or a rejection). -/
abbrev RefreshOracle := List Char → Except Unit Credentials

/-- `TokenService.refreshGoogleToken`: load the stored tokens, call the upstream
refresh endpoint with the stored refresh token, then persist the new tokens through
`storeTokens`.  The outer `catch` rethrows `UnauthorizedError`s and wraps every other
failure — including the unconditional `storeTokens` failure — into
`InternalServerError('Failed to refresh authentication tokens')`.  The table is
returned unchanged on every path because `storeTokens` never succeeds. -/
def refreshGoogleToken (cipherD : List Char → Option (List Char))
    (oracle : RefreshOracle) (tbl : UsersTable) (userId : String) :
    Except AppError GoogleTokens :=
  match getStoredTokens cipherD tbl userId with
  | .error _ => .error (.internal "Failed to refresh authentication tokens")
  | .ok none => .error (.unauthorized "No refresh token available")
  | .ok (some stored) =>
    match stored.refreshToken with
    | none => .error (.unauthorized "No refresh token available")
    | some rt =>
      match oracle rt with
      | .error _ => .error (.internal "Failed to refresh authentication tokens")
      | .ok creds =>
        match creds.access_token with
        | none => .error (.unauthorized "Failed to refresh access token")
        | some newAccess =>
          let newTokens : GoogleTokens :=
            { access_token := newAccess
              refresh_token := match creds.refresh_token with
                | some r => some r
                | none => some rt
              expires_at := creds.expiry_date
              scope := creds.scope }
          match storeTokens tbl userId newTokens with
          | .error _ => .error (.internal "Failed to refresh authentication tokens")
          | .ok _ => .ok newTokens

/-- The 5-minute freshness buffer of `ensureValidToken`, in milliseconds. -/
def bufferTime : Int := 5 * 60 * 1000

/-- `TokenService.ensureValidToken`: load the stored tokens (rethrowing a load
failure), fail `unauthenticated` when nothing is stored, refresh when a known expiry
is within the 5-minute buffer of `now`, and otherwise return the stored access
token unchanged. -/
def ensureValidToken (cipherD : List Char → Option (List Char))
    (oracle : RefreshOracle) (tbl : UsersTable) (now : Int) (userId : String) :
    Except AppError (List Char) :=
  match getStoredTokens cipherD tbl userId with
  | .error e => .error e
  | .ok none => .error (.unauthorized "No authentication tokens found")
  | .ok (some stored) =>
    match stored.expiresAt with
    | some e =>
      if e - now < bufferTime then
        match refreshGoogleToken cipherD oracle tbl userId with
        | .error err => .error err
        | .ok newTokens => .ok newTokens.access_token
      else
        .ok stored.accessToken
    | none => .ok stored.accessToken

/-- C1 — Token store round-trip.  `storeTokens` never completes successfully: for
every table, user id and token pair it raises the internal storage error (the bind of
four parameters against a statement whose text references only `$1`–`$3` is rejected
by the database), so no persisted row ever holds the wrapped tokens and no subsequent
load can return them. -/
theorem storeTokens_always_fails (tbl : UsersTable) (u : String) (t : GoogleTokens) :
    storeTokens tbl u t = .error (.internal "Failed to store authentication tokens") :=
  rfl

/-- `refreshGoogleToken` never returns successfully: its final step is
`storeTokens`, which always fails, and that failure is re-raised. -/
theorem refreshGoogleToken_never_ok (cipherD : List Char → Option (List Char))
    (oracle : RefreshOracle) (tbl : UsersTable) (userId : String) (t : GoogleTokens) :
    refreshGoogleToken cipherD oracle tbl userId ≠ .ok t := by
  unfold refreshGoogleToken
  intro h
  split at h
  · exact absurd h (by simp)
  · exact absurd h (by simp)
  · split at h
    · exact absurd h (by simp)
    · split at h
      · exact absurd h (by simp)
      · split at h
        · exact absurd h (by simp)
        · simp [storeTokens, storeTokensBoundParams, storeTokensPlaceholders] at h

/-- C5 counterexample — a stored access token with an unknown expiry
(`token_expires_at` NULL) is returned by `ensureValidToken` as-is: the call succeeds
at time `0` although the credential has no expiry at all, let alone one at least five
minutes away.  (The freshness check `expiresAt.getTime() - now < buffer` is only
performed when an expiry is present.) -/
theorem ensureValidToken_counterexample :
    ensureValidToken (fun l => some l) (fun _ => .error ())
        [("u1", { access_token := some (['0','0'] ++ ':' :: ['t','o','k']),
                  refresh_token := none, token_expires_at := none })] 0 "u1" =
      .ok ['t','o','k'] ∧
    getStoredTokens (fun l => some l)
        [("u1", { access_token := some (['0','0'] ++ ':' :: ['t','o','k']),
                  refresh_token := none, token_expires_at := none })] "u1" =
      .ok (some { accessToken := ['t','o','k'], refreshToken := none,
                  expiresAt := none }) := by
  constructor <;> rfl

/-- C5 (amended) — Token validity guarantee, as the code implements it:

* whenever `ensureValidToken` returns a token, the stored row's expiry is either
  unknown (returned with no freshness check) or at least `now + 5 minutes` (the
  refresh path never returns successfully, because `refreshGoogleToken` always fails
  on its broken `storeTokens` step, so a success always carries the stored token);
* when no credentials are stored (no row, or a row without an access token), the
  call fails `unauthenticated`. -/
theorem ensureValidToken_amended :
    (∀ (cipherD : List Char → Option (List Char)) (oracle : RefreshOracle)
       (tbl : UsersTable) (now : Int) (u : String) (tok : List Char),
       ensureValidToken cipherD oracle tbl now u = .ok tok →
       ∃ row, tbl.lookup u = some row ∧
         (row.token_expires_at = none ∨
          ∃ e, row.token_expires_at = some e ∧ now + bufferTime ≤ e)) ∧
    (∀ (cipherD : List Char → Option (List Char)) (oracle : RefreshOracle)
       (tbl : UsersTable) (now : Int) (u : String),
       (∀ row, tbl.lookup u = some row → row.access_token = none) →
       ensureValidToken cipherD oracle tbl now u =
         .error (.unauthorized "No authentication tokens found")) := by
  constructor
  · intro cipherD oracle tbl now u tok h
    unfold ensureValidToken at h
    cases hl : getStoredTokens cipherD tbl u with
    | error e =>
      simp only [hl] at h
      exact Except.noConfusion h
    | ok st =>
      simp only [hl] at h
      cases st with
      | none => simp at h
      | some stored =>
        -- relate the load result to the row it came from
        have hrow : ∃ row, tbl.lookup u = some row ∧
            row.token_expires_at = stored.expiresAt := by
          unfold getStoredTokens at hl
          cases hr : tbl.lookup u with
          | none => simp only [hr] at hl; simp at hl
          | some row =>
            simp only [hr] at hl
            refine ⟨row, rfl, ?_⟩
            cases hat : row.access_token with
            | none => simp only [hat] at hl; simp at hl
            | some ct =>
              simp only [hat] at hl
              cases hd : decrypt cipherD ct with
              | error _ => simp only [hd] at hl; exact Except.noConfusion hl
              | ok pt =>
                simp only [hd] at hl
                cases hrt : row.refresh_token with
                | none =>
                  simp only [hrt, Except.ok.injEq, Option.some.injEq] at hl
                  rw [← hl]
                | some rct =>
                  simp only [hrt] at hl
                  cases hd2 : decrypt cipherD rct with
                  | error _ => simp only [hd2] at hl; exact Except.noConfusion hl
                  | ok rpt =>
                    simp only [hd2, Except.ok.injEq, Option.some.injEq] at hl
                    rw [← hl]
        obtain ⟨row, hr, hexp⟩ := hrow
        refine ⟨row, hr, ?_⟩
        rw [hexp]
        cases he : stored.expiresAt with
        | none => exact Or.inl rfl
        | some e =>
          simp only [he] at h
          by_cases hlt : e - now < bufferTime
          · rw [if_pos hlt] at h
            cases hrf : refreshGoogleToken cipherD oracle tbl u with
            | error _ => simp only [hrf] at h; exact Except.noConfusion h
            | ok nt => exact absurd hrf (refreshGoogleToken_never_ok _ _ _ _ _)
          · exact Or.inr ⟨e, rfl, by omega⟩
  · intro cipherD oracle tbl now u hnone
    unfold ensureValidToken getStoredTokens
    cases hr : tbl.lookup u with
    | none => rfl
    | some row => simp only [hnone row hr]

/-- C5 witness for the amended theorem: both conjuncts applied at concrete inputs —
a stored token expiring well outside the buffer, and an empty table. -/
theorem ensureValidToken_amended_witness :
    (∃ row, ([("u1", { access_token := some (['0','0'] ++ ':' :: ['t','o','k']),
                       refresh_token := none,
                       token_expires_at := some 10000000 })] : UsersTable).lookup
          "u1" = some row ∧
        (row.token_expires_at = none ∨
         ∃ e, row.token_expires_at = some e ∧ (0 : Int) + bufferTime ≤ e)) ∧
    ensureValidToken (fun l => some l) (fun _ => .error ()) [] 0 "u2" =
      .error (.unauthorized "No authentication tokens found") :=
  ⟨ensureValidToken_amended.1 (fun l => some l) (fun _ => .error ()) _ 0 "u1"
      ['t','o','k'] (by rfl),
   ensureValidToken_amended.2 (fun l => some l) (fun _ => .error ()) [] 0 "u2"
      (by simp)⟩

/-! ## Local event store (`calendar_events` and `CalendarService.getEvents`) -/

/-- An event attendee (`EventAttendeeInput` of `types/calendar.ts`). -/
structure Attendee where
  email : String
  displayName : Option String := none
  optional : Bool := false
deriving Repr, DecidableEq

/-- A `calendar_events` row, with the columns the service reads and writes.
Attendees are persisted as their JSON serialization; they are modelled as the list
itself because no claim inspects the serialized text (readers parse it back
tolerantly). -/
structure EventRow where
  id : Nat
  user_id : String
  google_event_id : Option String := none
  title : String
  description : Option String := none
  start_date : Int
  end_date : Int
  location : Option String := none
  attendees : List Attendee := []
  is_all_day : Bool := false
  timezone : String := "UTC"
  status : String := "confirmed"
  source : String := "google"
  created_at : Int := 0
  updated_at : Int := 0
  last_modified : Int := 0
deriving Repr, DecidableEq

/-- `EventsQueryParams` of `types/calendar.ts` (the `timezone` parameter is accepted
but never used by the query and is omitted; dates are already parsed to epoch
milliseconds). -/
structure EventsQueryParams where
  page : Option Nat := none
  limit : Option Nat := none
  startDate : Option Int := none
  endDate : Option Int := none
  status : Option String := none
  search : Option String := none
  source : Option String := none
deriving Repr, DecidableEq

/-- SQL `LIKE` pattern matching: `%` matches any sequence, `_` any one character,
anything else itself. -/
def likeMatches (pat text : List Char) : Bool :=
  match pat, text with
  | [], [] => true
  | [], _ :: _ => false
  | '%' :: ps, t =>
    likeMatches ps t ||
      (match t with
       | [] => false
       | _ :: ts => likeMatches ('%' :: ps) ts)
  | '_' :: _, [] => false
  | '_' :: ps, _ :: ts => likeMatches ps ts
  | _ :: _, [] => false
  | p :: ps, a :: ts => p = a && likeMatches ps ts
termination_by (pat.length, text.length)

/-- `column ILIKE '%' || search || '%'`: case-insensitive `LIKE` against the search
string wrapped in wildcards. -/
def ilikeContains (column search : String) : Bool :=
  likeMatches ('%' :: search.data.map Char.toLower ++ ['%'])
    (column.data.map Char.toLower)

/-- The WHERE clause built by `CalendarService.getEvents`: owner equality plus the
optional filters (start/end bounds, status, source unless `'all'`, and the free-text
search over title or description; a NULL description never matches). -/
def eventMatchesQuery (userId : String) (p : EventsQueryParams) (e : EventRow) : Bool :=
  e.user_id = userId &&
  (match p.startDate with | none => true | some d => decide (d ≤ e.start_date)) &&
  (match p.endDate with | none => true | some d => decide (e.end_date ≤ d)) &&
  (match p.status with | none => true | some s => e.status = s) &&
  (match p.source with | none => true | some s => s = "all" || e.source = s) &&
  (match p.search with
   | none => true
   | some s =>
     ilikeContains e.title s ||
       (match e.description with
        | none => false
        | some d => ilikeContains d s))

/-- A JS number that can be `NaN` (`parseInt` of a missing column). `NaN` compares
false against everything. -/
inductive JsNum where
  | nan
  | num (n : Nat)
deriving Repr, DecidableEq

/-- The JS `<` on `offset + limit < total` when `total` may be `NaN`. -/
def jsNumLt (a : Nat) : JsNum → Bool
  | .nan => false
  | .num n => a < n

structure Pagination where
  page : Nat
  limit : Nat
  total : JsNum
  hasNext : Bool
  hasPrev : Bool
deriving Repr, DecidableEq

structure EventsResponse where
  events : List EventRow
  pagination : Pagination
deriving Repr, DecidableEq

/-- Insert a row into a list sorted ascending by start instant. -/
def insertByStart (e : EventRow) : List EventRow → List EventRow
  | [] => [e]
  | a :: as =>
    if a.start_date ≤ e.start_date then a :: insertByStart e as else e :: a :: as

/-- `ORDER BY start_date ASC` (insertion sort; SQL leaves the order of equal keys
unspecified, and no claim depends on it). -/
def sortByStart (l : List EventRow) : List EventRow :=
  l.foldr insertByStart []

theorem length_insertByStart (e : EventRow) (l : List EventRow) :
    (insertByStart e l).length = l.length + 1 := by
  induction l with
  | nil => rfl
  | cons a as ih =>
    simp only [insertByStart]
    by_cases h : a.start_date ≤ e.start_date <;> simp [h, ih]

theorem length_sortByStart (l : List EventRow) :
    (sortByStart l).length = l.length := by
  induction l with
  | nil => rfl
  | cons a as ih => simp [sortByStart, List.foldr] at ih ⊢; rw [length_insertByStart, ih]

/-- `CalendarService.getEvents`.

The rows are filtered by `eventMatchesQuery`, ordered ascending by start instant,
and cut with `LIMIT`/`OFFSET` where `offset = (page - 1) * limit`.

The total is where the source diverges from its intent: the count query is derived
from the main query by `query.replace(/SELECT .* FROM/, 'SELECT COUNT(*) FROM')`,
but the query text has a newline between `SELECT` and `FROM` and `.` does not match
line terminators, so the replacement never happens.  The executed "count" query is
therefore the same filtered SELECT (without ORDER BY/LIMIT/OFFSET): it returns the
matching rows themselves, `rows[0].count` is `undefined`, and
`parseInt(undefined, 10)` is `NaN`.  Hence `total` is `NaN` whenever at least one
row matches and `0` otherwise, and `hasNext = offset + limit < total` is `false`
whenever `total` is `NaN`. -/
def getEvents (events : List EventRow) (userId : String) (p : EventsQueryParams) :
    EventsResponse :=
  let page := p.page.getD 1
  let limit := p.limit.getD 50
  let offset := (page - 1) * limit
  let matchingRows := events.filter (eventMatchesQuery userId p)
  let sorted := sortByStart matchingRows
  let pageRows := (sorted.drop offset).take limit
  let total : JsNum := if matchingRows.length > 0 then .nan else .num 0
  { events := pageRows
    pagination :=
      { page := page
        limit := limit
        total := total
        hasNext := jsNumLt (offset + limit) total
        hasPrev := page > 1 } }

/-- C8 counterexample — one stored event, `page = 1`, `limit = 50`: `page × limit`
exceeds the matching count (50 > 1), yet the returned page is *not* empty (it holds
the event — page 1 is the partial last page, not a page past the end), and the
returned total is `NaN`, not the matching count `1` (the count-query rewrite never
produces a `COUNT(*)`). -/
theorem getEvents_counterexample :
    ((getEvents
        [{ id := 1, user_id := "u1", title := "A", start_date := 0, end_date := 1 }]
        "u1" { page := some 1, limit := some 50 }).events ≠ []) ∧
    ((getEvents
        [{ id := 1, user_id := "u1", title := "A", start_date := 0, end_date := 1 }]
        "u1" { page := some 1, limit := some 50 }).pagination.total ≠ .num 1) ∧
    1 * 50 >
      ([({ id := 1, user_id := "u1", title := "A", start_date := 0, end_date := 1 } :
          EventRow)].filter
        (eventMatchesQuery "u1" { page := some 1, limit := some 50 })).length := by
  refine ⟨?_, ?_, ?_⟩ <;> decide

/-- C8 (amended) — Pagination past the end, as the code implements it: whenever the
offset `(page − 1) × limit` is at least the number of matching events (the page lies
strictly past the data, not merely `page × limit > total`), the returned page is
empty and `hasNext` is false; the returned total, however, equals the matching count
only when that count is zero — otherwise it is `NaN`, because the count-query
rewrite fails and `parseInt` of the missing `count` column yields `NaN`. -/
theorem getEvents_amended (events : List EventRow) (userId : String)
    (p : EventsQueryParams)
    (hpage : 1 ≤ p.page.getD 1)
    (hoff : (events.filter (eventMatchesQuery userId p)).length ≤
      (p.page.getD 1 - 1) * p.limit.getD 50) :
    (getEvents events userId p).events = [] ∧
    (getEvents events userId p).pagination.hasNext = false ∧
    (getEvents events userId p).pagination.total =
      (if (events.filter (eventMatchesQuery userId p)).length = 0 then .num 0
       else .nan) := by
  have hlen : (sortByStart (events.filter (eventMatchesQuery userId p))).length =
      (events.filter (eventMatchesQuery userId p)).length :=
    length_sortByStart _
  refine ⟨?_, ?_, ?_⟩
  · simp only [getEvents]
    rw [List.drop_eq_nil_of_le (by omega), List.take_nil]
  · simp only [getEvents]
    by_cases h0 : (events.filter (eventMatchesQuery userId p)).length > 0
    · simp [h0, jsNumLt]
    · simp [h0, jsNumLt]
  · simp only [getEvents]
    by_cases h0 : (events.filter (eventMatchesQuery userId p)).length = 0 <;>
      simp [h0] <;> omega

/-- C8 witness: the amended theorem applied past the end of a one-event store
(`page = 2`, `limit = 50`). -/
theorem getEvents_amended_witness :
    (getEvents
        [{ id := 1, user_id := "u1", title := "A", start_date := 0, end_date := 1 }]
        "u1" { page := some 2, limit := some 50 }).events = [] ∧
    (getEvents
        [{ id := 1, user_id := "u1", title := "A", start_date := 0, end_date := 1 }]
        "u1" { page := some 2, limit := some 50 }).pagination.hasNext = false ∧
    (getEvents
        [{ id := 1, user_id := "u1", title := "A", start_date := 0, end_date := 1 }]
        "u1" { page := some 2, limit := some 50 }).pagination.total =
      (if ([({ id := 1, user_id := "u1", title := "A", start_date := 0,
               end_date := 1 } : EventRow)].filter
            (eventMatchesQuery "u1" { page := some 2, limit := some 50 })).length = 0
       then .num 0 else .nan) :=
  getEvents_amended _ _ _ (by decide) (by decide)

/-! ## Write-through creation (`CalendarService.validateEventInput` / `createEvent`) -/

/-- `CalendarEventInput` as `validateEventInput` receives it at runtime: the absent /
empty title is `""` (both are falsy in JS) and the dates may be missing. -/
structure CalendarEventInput where
  title : String := ""
  description : Option String := none
  startDate : Option Int := none
  endDate : Option Int := none
  location : Option String := none
  attendees : Option (List Attendee) := none
  isAllDay : Bool := false
  timezone : Option String := none
  status : Option String := none
deriving Repr, DecidableEq

/-- `CalendarService.isValidEmail`, i.e. the regex
`^[^\s@]+@[^\s@]+\.[^\s@]+$`.  A string matches that regex iff it contains exactly
one `'@'` (every class excludes `'@'`), no whitespace, a non-empty part before the
`'@'`, and — within the part after the `'@'` — some `'.'` with at least one
character on each side (the classes around the literal dot are non-empty and may
themselves contain dots). -/
def isValidEmail (email : String) : Bool :=
  match splitOnChar '@' email.data with
  | [lo, d] =>
    !lo.isEmpty && !(lo.any Char.isWhitespace) && !(d.any Char.isWhitespace) &&
    ((d.drop 1).dropLast.contains '.')
  | _ => false

/-- The attendee loop of `validateEventInput`: the first attendee with a missing or
ill-formed email aborts validation. -/
def validateEventAttendees : List Attendee → Except AppError Unit
  | [] => .ok ()
  | a :: rest =>
    if a.email = "" ∨ isValidEmail a.email = false then
      .error (.badRequest ("Invalid attendee email: " ++ a.email))
    else validateEventAttendees rest

/-- `CalendarService.validateEventInput`: title must be non-empty after trimming,
both dates must be present, the start must be strictly before the end
(`startDate >= endDate` is rejected), and every attendee must carry a well-formed
email. -/
def validateEventInput (e : CalendarEventInput) : Except AppError Unit :=
  if jsTrim e.title = "" then .error (.badRequest "Event title is required")
  else
    match e.startDate, e.endDate with
    | some s, some en =>
      if s ≥ en then .error (.badRequest "End date must be after start date")
      else
        match e.attendees with
        | none => .ok ()
        | some l => validateEventAttendees l
    | _, _ => .error (.badRequest "Start date and end date are required")

/-- The operations a run issues against the outside world, in order: upstream
Calendar API calls and writes to the `sync_state` row.  (Writes to the local
`calendar_events` table are visible in the returned `Db` value instead.) -/
inductive Op where
  | upstreamList
  | upstreamInsert
  | syncStateWrite
deriving Repr, DecidableEq

/-- A per-user `sync_state` row, with exactly the columns the service touches
(`INSERT INTO sync_state (user_id, next_sync_token, last_sync_time,
full_sync_completed, sync_error, sync_error_count)`).  The schema's
`sync_in_progress` column is not among them: no statement issued by the service
reads or writes it. -/
structure SyncStateRow where
  next_sync_token : Option String := none
  last_sync_time : Option Int := none
  full_sync_completed : Bool := false
  sync_error : Option String := none
  sync_error_count : Nat := 0
deriving Repr, DecidableEq

/-- The local database as the calendar service sees it: the `calendar_events` rows,
the per-user `sync_state` rows, and the next serial event id. -/
structure Db where
  events : List EventRow := []
  syncState : List (String × SyncStateRow) := []
  nextId : Nat := 1
deriving Repr, DecidableEq

/-- The response of the upstream `events.insert` call, as far as `createEvent`
inspects it (`googleResponse.data.id`). -/
structure InsertResp where
  id : Option String := none
deriving Repr, DecidableEq

/-- `CalendarService.createEvent`.  The steps, in source order: open a transaction;
validate; obtain an authenticated client (`auth` is the outcome of
`getAuthenticatedCalendar`, which wraps any token failure into
`UnauthorizedError('Failed to authenticate with Google Calendar')`); insert the
event upstream through the retry executor (`insertO` is the upstream endpoint,
indexed by attempt); require an upstream id; insert the local row; commit.  Every
error path rolls the transaction back — the returned `Db` is the input `Db` — and
rethrows the error unchanged. -/
def createEvent (auth : Bool) (insertO : Nat → Except JsErr InsertResp) (now : Int)
    (db : Db) (userId : String) (eventData : CalendarEventInput) :
    Except AppError EventRow × Db × List Op :=
  match validateEventInput eventData with
  | .error err => (.error err, db, [])
  | .ok _ =>
    if auth then
      match executeWithRetry insertO with
      | .error err => (.error err, db, [.upstreamInsert])
      | .ok resp =>
        match resp.id with
        | none =>
          (.error (.internal "Failed to create event in Google Calendar"), db,
           [.upstreamInsert])
        | some gid =>
          -- validation guarantees both dates are present
          let row : EventRow :=
            { id := db.nextId
              user_id := userId
              google_event_id := some gid
              title := eventData.title
              description := eventData.description
              start_date := eventData.startDate.getD 0
              end_date := eventData.endDate.getD 0
              location := eventData.location
              attendees := eventData.attendees.getD []
              is_all_day := eventData.isAllDay
              timezone := eventData.timezone.getD "UTC"
              status := eventData.status.getD "confirmed"
              source := "google"
              created_at := now
              updated_at := now
              last_modified := now }
          (.ok row, { db with events := db.events ++ [row], nextId := db.nextId + 1 },
           [.upstreamInsert])
    else
      (.error (.unauthorized "Failed to authenticate with Google Calendar"), db, [])

/-- C6 — Write-through atomicity on upstream failure: when the upstream create call
fails through the retry executor, `createEvent` returns that classified error, the
database is unchanged (the transaction is rolled back and no local row was ever
inserted — the local INSERT only runs after upstream success), and a subsequent
`getEvents` over the resulting store equals one over the original store. -/
theorem createEvent_upstream_failure_rollback
    (insertO : Nat → Except JsErr InsertResp) (now : Int) (db : Db) (userId : String)
    (input : CalendarEventInput) (err : AppError)
    (hvalid : validateEventInput input = .ok ())
    (hfail : executeWithRetry insertO = .error err) :
    createEvent true insertO now db userId input = (.error err, db, [.upstreamInsert]) ∧
    ∀ p : EventsQueryParams,
      getEvents (createEvent true insertO now db userId input).2.1.events userId p =
        getEvents db.events userId p := by
  have hc : createEvent true insertO now db userId input =
      (.error err, db, [.upstreamInsert]) := by
    unfold createEvent
    simp only [hvalid, if_pos, hfail]
  exact ⟨hc, fun p => by rw [hc]⟩

/-- C6 witness: a network error on every attempt exhausts the retry budget and the
raw error is surfaced; the store (holding one unrelated event) is untouched. -/
theorem createEvent_upstream_failure_rollback_witness :
    createEvent true (fun _ => .error { code := some (.str "ECONNRESET") }) 0
        { events := [{ id := 1, user_id := "u1", title := "A", start_date := 0,
                       end_date := 1 }], syncState := [], nextId := 2 }
        "u1" { title := "Meeting", startDate := some 100, endDate := some 200 } =
      (.error (.js { code := some (.str "ECONNRESET") }),
       { events := [{ id := 1, user_id := "u1", title := "A", start_date := 0,
                      end_date := 1 }], syncState := [], nextId := 2 },
       [.upstreamInsert]) ∧
    ∀ p : EventsQueryParams,
      getEvents (createEvent true (fun _ => .error { code := some (.str "ECONNRESET") })
          0 { events := [{ id := 1, user_id := "u1", title := "A", start_date := 0,
                           end_date := 1 }], syncState := [], nextId := 2 }
          "u1" { title := "Meeting", startDate := some 100,
                 endDate := some 200 }).2.1.events "u1" p =
        getEvents [{ id := 1, user_id := "u1", title := "A", start_date := 0,
                     end_date := 1 }] "u1" p :=
  createEvent_upstream_failure_rollback _ 0 _ "u1" _ _ (by decide) (by decide)

/-- The acceptance predicate exactly as claim C7 words it: title non-empty after
trimming, both dates present with `end ≥ start` (equality passes), and every
supplied attendee email well-formed. -/
def claimC7Accepts (e : CalendarEventInput) : Bool :=
  jsTrim e.title ≠ "" && e.startDate.isSome && e.endDate.isSome &&
  e.startDate.getD 0 ≤ e.endDate.getD 0 &&
  (e.attendees.getD []).all fun a => isValidEmail a.email

/-- An input whose end instant equals its start instant. -/
def zeroLengthInput : CalendarEventInput :=
  { title := "Meeting", startDate := some 100, endDate := some 100 }

/-- C7 counterexample — an input whose end equals its start satisfies the claim's
acceptance predicate (`end ≥ start`), yet `validateEventInput` rejects it: the code
requires `end > start` strictly (`if (startDate >= endDate) throw`). -/
theorem validateEventInput_counterexample :
    claimC7Accepts zeroLengthInput = true ∧
    validateEventInput zeroLengthInput =
      .error (.badRequest "End date must be after start date") := by
  exact ⟨by decide, by decide⟩

theorem validateEventAttendees_ok_iff (l : List Attendee) :
    validateEventAttendees l = .ok () ↔
      ∀ a ∈ l, a.email ≠ "" ∧ isValidEmail a.email = true := by
  induction l with
  | nil => simp [validateEventAttendees]
  | cons a rest ih =>
    simp only [validateEventAttendees]
    by_cases h : a.email = "" ∨ isValidEmail a.email = false
    · rw [if_pos h]
      refine ⟨fun hcontra => absurd hcontra (by simp), fun hall => ?_⟩
      rcases h with h1 | h2
      · exact absurd h1 (hall a (List.mem_cons_self a rest)).1
      · exact absurd (hall a (List.mem_cons_self a rest)).2 (by simp [h2])
    · rw [if_neg h, ih]
      push_neg at h
      constructor
      · intro hrest b hb
        rcases List.mem_cons.mp hb with rfl | hb2
        · exact ⟨h.1, by simpa using h.2⟩
        · exact hrest b hb2
      · intro hall b hb
        exact hall b (List.mem_cons_of_mem _ hb)

/-- C7 (amended) — Write-through input validation, as the code implements it:
`validateEventInput` accepts exactly the inputs with a non-empty trimmed title, both
dates present with the start **strictly** before the end (end = start is rejected),
and every attendee carrying a non-empty, well-formed email; and whenever validation
rejects, `createEvent` surfaces that validation error with no upstream call issued
(empty operation trace) and no change to the store. -/
theorem validateEventInput_amended :
    (∀ e : CalendarEventInput,
       validateEventInput e = .ok () ↔
       (jsTrim e.title ≠ "" ∧
        ∃ s en, e.startDate = some s ∧ e.endDate = some en ∧ s < en ∧
          ∀ a ∈ e.attendees.getD [], a.email ≠ "" ∧ isValidEmail a.email = true)) ∧
    (∀ (auth : Bool) (insertO : Nat → Except JsErr InsertResp) (now : Int) (db : Db)
       (userId : String) (e : CalendarEventInput) (err : AppError),
       validateEventInput e = .error err →
       createEvent auth insertO now db userId e = (.error err, db, [])) := by
  constructor
  · intro e
    unfold validateEventInput
    by_cases ht : jsTrim e.title = ""
    · simp [ht]
    · rw [if_neg ht]
      cases hs : e.startDate with
      | none => simp [hs]
      | some s =>
        cases hen : e.endDate with
        | none => simp
        | some en =>
          by_cases hge : s ≥ en
          · simp only [if_pos hge]
            constructor
            · intro hcontra; exact absurd hcontra (by simp)
            · rintro ⟨-, s2, en2, hs2, hen2, hlt, -⟩
              have h1 : s = s2 := Option.some.inj hs2
              have h2 : en = en2 := Option.some.inj hen2
              omega
          · simp only [if_neg hge]
            cases hat : e.attendees with
            | none =>
              simp only [Option.getD_none]
              constructor
              · intro _
                exact ⟨ht, s, en, rfl, rfl, by omega, by simp⟩
              · intro _; trivial
            | some l =>
              rw [show (some l).getD [] = l from rfl]
              rw [validateEventAttendees_ok_iff]
              constructor
              · intro hall
                exact ⟨ht, s, en, rfl, rfl, by omega, hall⟩
              · rintro ⟨-, s2, en2, -, -, -, hall⟩
                exact hall
  · intro auth insertO now db userId e err hv
    unfold createEvent
    simp only [hv]

/-- A well-formed input: non-empty title, strictly ordered dates, one valid
attendee. -/
def standupInput : CalendarEventInput :=
  { title := "Standup", startDate := some 0, endDate := some 1,
    attendees := some [{ email := "a@b.c" }] }

/-- C7 witness for the amended theorem: a well-formed input is accepted (via the
backward direction), and an input with a whitespace-only title is rejected by
`createEvent` with an empty operation trace. -/
theorem validateEventInput_amended_witness :
    validateEventInput standupInput = .ok () ∧
    createEvent true (fun _ => .ok { id := some "g1" }) 0 {} "u1" { title := " " } =
      (.error (.badRequest "Event title is required"), {}, []) :=
  ⟨(validateEventInput_amended.1 _).mpr
      ⟨by decide, 0, 1, rfl, rfl, by omega, by decide⟩,
   validateEventInput_amended.2 true _ 0 {} "u1" _ _ (by decide)⟩

/-! ## Sync engine (`CalendarService.syncWithGoogle` and helpers) -/

/-- `SyncOptions` of `types/calendar.ts`. -/
structure SyncOptions where
  fullSync : Bool := false
  maxResults : Option Nat := none
  timeMin : Option Int := none
  timeMax : Option Int := none
deriving Repr, DecidableEq

/-- An upstream calendar event as the sync engine inspects it.  `start.dateTime`
and `start.date` are parsed to epoch milliseconds; `updated` is
`new Date(googleEvent.updated)` and is `none` when the field is absent (an Invalid
Date, which compares false against everything). -/
structure GEvent where
  id : Option String := none
  status : Option String := none
  updated : Option Int := none
  summary : Option String := none
  description : Option String := none
  startDateTime : Option Int := none
  startDateOnly : Option Int := none
  startTimeZone : Option String := none
  endDateTime : Option Int := none
  endDateOnly : Option Int := none
  location : Option String := none
  attendees : Option (List Attendee) := none
deriving Repr, DecidableEq

/-- The parameters the engine passes to the upstream `events.list` endpoint. -/
structure ListReq where
  syncToken : Option String := none
  pageToken : Option String := none
  timeMin : Option Int := none
  timeMax : Option Int := none
  maxResults : Nat := 2500
  singleEvents : Bool := false
  orderByStartTime : Bool := false
deriving Repr, DecidableEq

/-- The upstream `events.list` response, as far as the engine inspects it. -/
structure ListResp where
  items : Option (List GEvent) := none
  nextPageToken : Option String := none
  nextSyncToken : Option String := none
deriving Repr, DecidableEq

/-- The upstream `events.list` endpooint: request and attempt number in, response or
error out.  (The attempt index models that each retry re-issues the HTTP call.) -/
abbrev ListOracle := ListReq → Nat → Except JsErr ListResp

/-- `CalendarErrorType` of `types/calendar.ts`. -/
inductive CalendarErrorType where
  | RATE_LIMIT | QUOTA_EXCEEDED | AUTH_ERROR | NETWORK_ERROR
  | VALIDATION_ERROR | SYNC_ERROR | NOT_FOUND | CONFLICT
deriving Repr, DecidableEq

/-- `CalendarError` of `types/calendar.ts` (the fields the engine populates). -/
structure CalError where
  type : CalendarErrorType
  message : String
deriving Repr, DecidableEq

/-- `CalendarSyncResult` of `types/calendar.ts`. -/
structure CalendarSyncResult where
  success : Bool
  eventsProcessed : Nat := 0
  eventsCreated : Nat := 0
  eventsUpdated : Nat := 0
  eventsDeleted : Nat := 0
  nextSyncToken : Option String := none
  errors : List CalError := []
deriving Repr, DecidableEq

/-- `CalendarService.mapGoogleEventToInput`: `summary || 'Untitled Event'` (an empty
summary is falsy and also falls back), `start.dateTime || start.date`, all-day iff
`start.date` is present, timezone from `start.timeZone` or `'UTC'`, status defaulted
to `'confirmed'`. -/
def mapGoogleEventToInput (g : GEvent) : CalendarEventInput :=
  { title := match g.summary with
      | some s => if s = "" then "Untitled Event" else s
      | none => "Untitled Event"
    description := g.description
    startDate := g.startDateTime <|> g.startDateOnly
    endDate := g.endDateTime <|> g.endDateOnly
    location := g.location
    attendees := some (g.attendees.getD [])
    isAllDay := g.startDateOnly.isSome
    timezone := some (g.startTimeZone.getD "UTC")
    status := some (g.status.getD "confirmed") }

/-- `CalendarService.createEventFromGoogle`: INSERT the mapped row.  A row with a
missing start or end instant cannot be serialized into the timestamp columns
(an Invalid Date), which the per-item error handling of the sync loop catches. -/
def createEventFromGoogle (now : Int) (userId gid : String) (g : GEvent) (db : Db) :
    Except AppError Db :=
  let ed := mapGoogleEventToInput g
  match ed.startDate, ed.endDate with
  | some s, some en =>
    .ok { db with
          events := db.events ++
            [{ id := db.nextId
               user_id := userId
               google_event_id := some gid
               title := ed.title
               description := ed.description
               start_date := s
               end_date := en
               location := ed.location
               attendees := ed.attendees.getD []
               is_all_day := ed.isAllDay
               timezone := ed.timezone.getD "UTC"
               status := ed.status.getD "confirmed"
               source := "google"
               created_at := now
               updated_at := now
               last_modified := now }]
          nextId := db.nextId + 1 }
  | _, _ => .error (.internal "Invalid event dates")

/-- `CalendarService.updateEventFromGoogle`: UPDATE the mapped fields of the row with
the given id, refreshing `last_modified`. -/
def updateEventFromGoogle (now : Int) (userId : String) (rowId : Nat) (g : GEvent)
    (db : Db) : Except AppError Db :=
  let ed := mapGoogleEventToInput g
  match ed.startDate, ed.endDate with
  | some s, some en =>
    .ok { db with
          events := db.events.map fun e =>
            if e.id = rowId ∧ e.user_id = userId then
              { e with
                title := ed.title
                description := ed.description
                start_date := s
                end_date := en
                location := ed.location
                attendees := ed.attendees.getD []
                is_all_day := ed.isAllDay
                timezone := ed.timezone.getD "UTC"
                status := ed.status.getD "confirmed"
                updated_at := now
                last_modified := now }
            else e }
  | _, _ => .error (.internal "Invalid event dates")

/-- `CalendarService.processGoogleEvent`: skip events without an id; delete the
local row for cancelled events; insert unknown events; update known events only when
the upstream `updated` instant is strictly newer than the local `last_modified` (an
absent `updated` is an Invalid Date and never newer). -/
def processGoogleEvent (now : Int) (userId : String) (g : GEvent) (db : Db)
    (result : CalendarSyncResult) : Except AppError (Db × CalendarSyncResult) :=
  match g.id with
  | none => .ok (db, result)
  | some gid =>
    if g.status = some "cancelled" then
      .ok ({ db with
             events := db.events.filter fun e =>
               !(e.user_id = userId && e.google_event_id = some gid) },
           { result with eventsDeleted := result.eventsDeleted + 1 })
    else
      match db.events.find? (fun e =>
          e.user_id = userId && e.google_event_id = some gid) with
      | none =>
        match createEventFromGoogle now userId gid g db with
        | .error e => .error e
        | .ok db2 => .ok (db2, { result with eventsCreated := result.eventsCreated + 1 })
      | some ex =>
        match g.updated with
        | some gu =>
          if ex.last_modified < gu then
            match updateEventFromGoogle now userId ex.id g db with
            | .error e => .error e
            | .ok db2 =>
              .ok (db2, { result with eventsUpdated := result.eventsUpdated + 1 })
          else .ok (db, result)
        | none => .ok (db, result)

/-- The per-item loop shared by both sync modes: each item is processed in its own
`try`; a success also bumps `eventsProcessed`, a failure appends a `SYNC_ERROR`
entry (with the item id and the thrown message) and continues with the remaining
items. -/
def processItems (now : Int) (userId : String) (items : List GEvent) (db : Db)
    (result : CalendarSyncResult) : Db × CalendarSyncResult :=
  match items with
  | [] => (db, result)
  | g :: rest =>
    match processGoogleEvent now userId g db result with
    | .ok (db2, r2) =>
      processItems now userId rest db2
        { r2 with eventsProcessed := r2.eventsProcessed + 1 }
    | .error e =>
      processItems now userId rest db
        { result with
          errors := result.errors ++
            [{ type := .SYNC_ERROR,
               message := "Failed to process event " ++ (g.id.getD "undefined") ++
                 ": " ++ ((AppError.errMessage e).getD "Unknown error") }] }

/-- The request `performFullSync` issues: a one-year window around `now` unless
overridden, `singleEvents`, ordered by start time, `maxResults` capped at Google's
2500. -/
def fullSyncReq (opts : SyncOptions) (now : Int) (pageToken : Option String) :
    ListReq :=
  { syncToken := none
    pageToken := pageToken
    timeMin := some (opts.timeMin.getD (now - 365 * 24 * 60 * 60 * 1000))
    timeMax := some (opts.timeMax.getD (now + 365 * 24 * 60 * 60 * 1000))
    maxResults := min (opts.maxResults.getD 2500) 2500
    singleEvents := true
    orderByStartTime := true }

/-- The page loop of `CalendarService.performFullSync`.  `acc` is the result record
accumulated so far; `fuel` bounds the number of pages walked (the source loop runs
until the upstream stops returning a page token).  An upstream failure at any page
marks the accumulated result unsuccessful and appends one `SYNC_ERROR`; per-item
failures are already inside `acc`.  Each iteration overwrites `nextSyncToken` with
the current page's token (`response.data.nextSyncToken || undefined`). -/
def performFullSyncGo (o : ListOracle) (now : Int) (userId : String)
    (opts : SyncOptions) :
    Nat → Db → CalendarSyncResult → Option String →
      CalendarSyncResult × Db × List Op
  | 0, db, acc, _ => (acc, db, [])
  | fuel + 1, db, acc, pageToken =>
    match executeWithRetry (o (fullSyncReq opts now pageToken)) with
    | .error e =>
      ({ acc with
         success := false
         errors := acc.errors ++
           [{ type := .SYNC_ERROR,
              message := (AppError.errMessage e).getD "Full sync failed" }] },
       db, [.upstreamList])
    | .ok resp =>
      let step := match resp.items with
        | none => (db, acc)
        | some items => processItems now userId items db acc
      let acc2 := { step.2 with nextSyncToken := resp.nextSyncToken }
      match resp.nextPageToken with
      | none => (acc2, step.1, [.upstreamList])
      | some pt =>
        let rest := performFullSyncGo o now userId opts fuel step.1 acc2 (some pt)
        (rest.1, rest.2.1, .upstreamList :: rest.2.2)

/-- `CalendarService.performFullSync`. -/
def performFullSync (o : ListOracle) (now : Int) (userId : String)
    (opts : SyncOptions) (db : Db) (fuel : Nat) :
    CalendarSyncResult × Db × List Op :=
  performFullSyncGo o now userId opts fuel db { success := true } none

/-- The request `performIncrementalSync` issues: the stored sync token on the first
page only (`syncToken: pageToken ? undefined : syncToken`), thereafter the page
token. -/
def incSyncReq (opts : SyncOptions) (syncToken : String) (pageToken : Option String) :
    ListReq :=
  { syncToken := match pageToken with
      | some _ => none
      | none => some syncToken
    pageToken := pageToken
    timeMin := none
    timeMax := none
    maxResults := opts.maxResults.getD 2500
    singleEvents := false
    orderByStartTime := false }

/-- The page loop of `CalendarService.performIncrementalSync`.  Identical to the
full-sync loop except for the request shape and the catch: an upstream error whose
code is 410 or whose message names an invalid sync token triggers the transparent
fallback `performFullSync(userId, calendar, { ...options, fullSync: true })`
(receiving the loop's page budget `fullFuel`); any other failure marks the result
unsuccessful. -/
def performIncrementalSyncGo (o : ListOracle) (now : Int) (userId : String)
    (syncToken : String) (opts : SyncOptions) (fullFuel : Nat) :
    Nat → Db → CalendarSyncResult → Option String →
      CalendarSyncResult × Db × List Op
  | 0, db, acc, _ => (acc, db, [])
  | fuel + 1, db, acc, pageToken =>
    match executeWithRetry (o (incSyncReq opts syncToken pageToken)) with
    | .error e =>
      if e.errCode = some (.num 410) ∨
          optIncludes e.errMessage "Sync token is no longer valid" = true then
        let fall := performFullSync o now userId { opts with fullSync := true } db
          fullFuel
        (fall.1, fall.2.1, .upstreamList :: fall.2.2)
      else
        ({ acc with
           success := false
           errors := acc.errors ++
             [{ type := .SYNC_ERROR,
                message := (AppError.errMessage e).getD "Incremental sync failed" }] },
         db, [.upstreamList])
    | .ok resp =>
      let step := match resp.items with
        | none => (db, acc)
        | some items => processItems now userId items db acc
      let acc2 := { step.2 with nextSyncToken := resp.nextSyncToken }
      match resp.nextPageToken with
      | none => (acc2, step.1, [.upstreamList])
      | some pt =>
        let rest := performIncrementalSyncGo o now userId syncToken opts fullFuel
          fuel step.1 acc2 (some pt)
        (rest.1, rest.2.1, .upstreamList :: rest.2.2)

/-- `CalendarService.performIncrementalSync`. -/
def performIncrementalSync (o : ListOracle) (now : Int) (userId : String)
    (syncToken : String) (opts : SyncOptions) (db : Db) (fuel : Nat) :
    CalendarSyncResult × Db × List Op :=
  performIncrementalSyncGo o now userId syncToken opts fuel fuel db
    { success := true } none

/-- `CalendarService.getSyncState`: the stored row, or the all-empty fallback object
when none exists. -/
def getSyncState (db : Db) (userId : String) : SyncStateRow :=
  (db.syncState.lookup userId).getD {}

/-- `CalendarService.updateSyncState`: the upsert

    INSERT INTO sync_state (user_id, next_sync_token, last_sync_time,
                            full_sync_completed, sync_error, sync_error_count)
    VALUES ($1, $2, now, $4, $5, error ? 1 : 0)
    ON CONFLICT (user_id) DO UPDATE SET
      next_sync_token   = EXCLUDED.next_sync_token,
      last_sync_time    = CASE WHEN success THEN now  ELSE old.last_sync_time END,
      full_sync_completed = CASE WHEN success THEN true ELSE old.full_sync_completed END,
      sync_error        = EXCLUDED.sync_error,
      sync_error_count  = CASE WHEN success THEN 0 ELSE old.sync_error_count + 1 END

Note that `next_sync_token` and `sync_error` are overwritten unconditionally, also
on failure. -/
def updateSyncState (db : Db) (now : Int) (userId : String) (tok : Option String)
    (success : Bool) (err : Option String) : Db :=
  match db.syncState.lookup userId with
  | none =>
    { db with
      syncState := db.syncState ++
        [(userId,
          { next_sync_token := tok
            last_sync_time := some now
            full_sync_completed := success
            sync_error := err
            sync_error_count := if err.isSome then 1 else 0 })] }
  | some r =>
    { db with
      syncState := db.syncState.map fun p =>
        if p.1 = userId then
          (userId,
           { next_sync_token := tok
             last_sync_time := if success then some now else r.last_sync_time
             full_sync_completed := if success then true else r.full_sync_completed
             sync_error := err
             sync_error_count := if success then 0 else r.sync_error_count + 1 })
        else p }

/-- `CalendarService.syncWithGoogle`.  `auth` is the outcome of
`getAuthenticatedCalendar` (false models its `UnauthorizedError('Failed to
authenticate with Google Calendar')`).  When authenticated: read the cursor, choose
full sync iff requested, no stored token, or full sync never completed; run the
chosen mode; then — as the one and only write to the cursor — upsert
`(result.nextSyncToken, result.success)` with no error message.  When
authentication throws, the outer catch records the failure message in the cursor
(token `null`, `success` false) and returns a failure result instead of
rethrowing. -/
def syncWithGoogle (auth : Bool) (o : ListOracle) (now : Int) (db : Db)
    (userId : String) (opts : SyncOptions) (fuel : Nat) :
    CalendarSyncResult × Db × List Op :=
  if auth then
    let st := getSyncState db userId
    let isFullSync := opts.fullSync || st.next_sync_token.isNone ||
      !st.full_sync_completed
    let run :=
      if isFullSync then performFullSync o now userId opts db fuel
      else performIncrementalSync o now userId (st.next_sync_token.getD "") opts db
        fuel
    (run.1, updateSyncState run.2.1 now userId run.1.nextSyncToken run.1.success none,
     run.2.2 ++ [.syncStateWrite])
  else
    ({ success := false
       errors := [{ type := .SYNC_ERROR,
                    message := "Failed to authenticate with Google Calendar" }] },
     updateSyncState db now userId none false
       (some "Failed to authenticate with Google Calendar"),
     [.syncStateWrite])

/-! ### Supporting lemmas about the sync loops -/

theorem createEventFromGoogle_syncState (now : Int) (u gid : String) (g : GEvent)
    (db db2 : Db) (h : createEventFromGoogle now u gid g db = .ok db2) :
    db2.syncState = db.syncState := by
  simp only [createEventFromGoogle] at h
  split at h
  · rw [← Except.ok.inj h]
  · exact Except.noConfusion h

theorem updateEventFromGoogle_syncState (now : Int) (u : String) (rowId : Nat)
    (g : GEvent) (db db2 : Db)
    (h : updateEventFromGoogle now u rowId g db = .ok db2) :
    db2.syncState = db.syncState := by
  simp only [updateEventFromGoogle] at h
  split at h
  · rw [← Except.ok.inj h]
  · exact Except.noConfusion h

theorem processGoogleEvent_syncState (now : Int) (u : String) (g : GEvent) (db : Db)
    (r : CalendarSyncResult) (db2 : Db) (r2 : CalendarSyncResult)
    (h : processGoogleEvent now u g db r = .ok (db2, r2)) :
    db2.syncState = db.syncState := by
  unfold processGoogleEvent at h
  cases hid : g.id with
  | none => simp only [hid] at h; simp at h; rw [← h.1]
  | some gid =>
    simp only [hid] at h
    by_cases hc : g.status = some "cancelled"
    · rw [if_pos hc] at h
      simp at h
      rw [← h.1]
    · rw [if_neg hc] at h
      cases hf : db.events.find? (fun e =>
          e.user_id = u && e.google_event_id = some gid) with
      | none =>
        simp only [hf] at h
        cases hcr : createEventFromGoogle now u gid g db with
        | error e => simp only [hcr] at h; exact Except.noConfusion h
        | ok db3 =>
          simp only [hcr] at h
          simp at h
          rw [← h.1]
          exact createEventFromGoogle_syncState now u gid g db db3 hcr
      | some ex =>
        simp only [hf] at h
        cases hu : g.updated with
        | none => simp only [hu] at h; simp at h; rw [← h.1]
        | some gu =>
          simp only [hu] at h
          by_cases hlt : ex.last_modified < gu
          · rw [if_pos hlt] at h
            cases hup : updateEventFromGoogle now u ex.id g db with
            | error e => simp only [hup] at h; exact Except.noConfusion h
            | ok db3 =>
              simp only [hup] at h
              simp at h
              rw [← h.1]
              exact updateEventFromGoogle_syncState now u ex.id g db db3 hup
          · rw [if_neg hlt] at h
            simp at h
            rw [← h.1]

theorem processItems_syncState (now : Int) (u : String) :
    ∀ (items : List GEvent) (db : Db) (r : CalendarSyncResult),
      (processItems now u items db r).1.syncState = db.syncState := by
  intro items
  induction items with
  | nil => intro db r; rfl
  | cons g rest ih =>
    intro db r
    simp only [processItems]
    cases hp : processGoogleEvent now u g db r with
    | ok pair =>
      rw [ih pair.1]
      exact processGoogleEvent_syncState now u g db r pair.1 pair.2
        (by rw [hp])
    | error e => rw [ih db]

theorem performFullSyncGo_syncState (o : ListOracle) (now : Int) (u : String)
    (opts : SyncOptions) :
    ∀ (fuel : Nat) (db : Db) (acc : CalendarSyncResult) (pt : Option String),
      (performFullSyncGo o now u opts fuel db acc pt).2.1.syncState =
        db.syncState := by
  intro fuel
  induction fuel with
  | zero => intro db acc pt; rfl
  | succ n ih =>
    intro db acc pt
    simp only [performFullSyncGo]
    cases executeWithRetry (o (fullSyncReq opts now pt)) with
    | error e => rfl
    | ok resp =>
      obtain ⟨items, npt, nst⟩ := resp
      cases npt with
      | none =>
        cases items with
        | none => rfl
        | some its => exact processItems_syncState now u its db acc
      | some pt2 =>
        cases items with
        | none => rw [ih]
        | some its => rw [ih]; exact processItems_syncState now u its db acc

theorem performFullSyncGo_no_syncStateWrite (o : ListOracle) (now : Int) (u : String)
    (opts : SyncOptions) :
    ∀ (fuel : Nat) (db : Db) (acc : CalendarSyncResult) (pt : Option String),
      Op.syncStateWrite ∉ (performFullSyncGo o now u opts fuel db acc pt).2.2 := by
  intro fuel
  induction fuel with
  | zero => intro db acc pt; simp [performFullSyncGo]
  | succ n ih =>
    intro db acc pt
    simp only [performFullSyncGo]
    cases executeWithRetry (o (fullSyncReq opts now pt)) with
    | error e => simp
    | ok resp =>
      obtain ⟨items, npt, nst⟩ := resp
      cases npt with
      | none => simp
      | some pt2 => simpa using ih _ _ _

theorem performIncrementalSyncGo_syncState (o : ListOracle) (now : Int) (u : String)
    (tok : String) (opts : SyncOptions) (fullFuel : Nat) :
    ∀ (fuel : Nat) (db : Db) (acc : CalendarSyncResult) (pt : Option String),
      (performIncrementalSyncGo o now u tok opts fullFuel fuel db acc pt).2.1.syncState =
        db.syncState := by
  intro fuel
  induction fuel with
  | zero => intro db acc pt; rfl
  | succ n ih =>
    intro db acc pt
    simp only [performIncrementalSyncGo]
    cases executeWithRetry (o (incSyncReq opts tok pt)) with
    | error e =>
      by_cases hinv : e.errCode = some (.num 410) ∨
          optIncludes e.errMessage "Sync token is no longer valid" = true
      · simp only [if_pos hinv]
        exact performFullSyncGo_syncState o now u { opts with fullSync := true }
          fullFuel db { success := true } none
      · simp only [if_neg hinv]
    | ok resp =>
      obtain ⟨items, npt, nst⟩ := resp
      cases npt with
      | none =>
        cases items with
        | none => rfl
        | some its => exact processItems_syncState now u its db acc
      | some pt2 =>
        cases items with
        | none => rw [ih]
        | some its => rw [ih]; exact processItems_syncState now u its db acc

theorem performIncrementalSyncGo_no_syncStateWrite (o : ListOracle) (now : Int)
    (u : String) (tok : String) (opts : SyncOptions) (fullFuel : Nat) :
    ∀ (fuel : Nat) (db : Db) (acc : CalendarSyncResult) (pt : Option String),
      Op.syncStateWrite ∉
        (performIncrementalSyncGo o now u tok opts fullFuel fuel db acc pt).2.2 := by
  intro fuel
  induction fuel with
  | zero => intro db acc pt; simp [performIncrementalSyncGo]
  | succ n ih =>
    intro db acc pt
    simp only [performIncrementalSyncGo]
    cases executeWithRetry (o (incSyncReq opts tok pt)) with
    | error e =>
      by_cases hinv : e.errCode = some (.num 410) ∨
          optIncludes e.errMessage "Sync token is no longer valid" = true
      · simp only [if_pos hinv]
        simpa using performFullSyncGo_no_syncStateWrite o now u
          { opts with fullSync := true } fullFuel db { success := true } none
      · simp only [if_neg hinv]
        simp
    | ok resp =>
      obtain ⟨items, npt, nst⟩ := resp
      cases npt with
      | none => simp
      | some pt2 => simpa using ih _ _ _

theorem lookup_map_update {β : Type} (l : List (String × β)) (u : String) (v : β)
    (r : β) (hr : l.lookup u = some r) :
    (l.map fun p => if p.1 = u then (u, v) else p).lookup u = some v := by
  induction l with
  | nil => simp [List.lookup] at hr
  | cons p ps ih =>
    obtain ⟨k, b⟩ := p
    by_cases h : k = u
    · subst h
      rw [List.map_cons,
        show (if ((k, b).1 = k) then (k, v) else (k, b)) = (k, v) from if_pos rfl]
      simp [List.lookup]
    · have hb : (u == k) = false := beq_eq_false_iff_ne.mpr fun hx => h hx.symm
      simp only [List.lookup, hb] at hr
      rw [List.map_cons,
        show (if ((k, b).1 = u) then (u, v) else (k, b)) = (k, b) from if_neg h]
      simp only [List.lookup, hb]
      exact ih hr

/-- The row `updateSyncState` leaves behind for a user that already has one. -/
theorem updateSyncState_lookup_self (db : Db) (now : Int) (u : String)
    (tok : Option String) (success : Bool) (err : Option String) (r : SyncStateRow)
    (hr : db.syncState.lookup u = some r) :
    (updateSyncState db now u tok success err).syncState.lookup u =
      some { next_sync_token := tok
             last_sync_time := if success then some now else r.last_sync_time
             full_sync_completed := if success then true else r.full_sync_completed
             sync_error := err
             sync_error_count := if success then 0 else r.sync_error_count + 1 } := by
  unfold updateSyncState
  rw [hr]
  exact lookup_map_update db.syncState u _ r hr

/-! ### C2 — sync mutual exclusion -/

/-- The initial store for the C2 race: an existing cursor with a stored token and a
completed full sync, so a new request chooses incremental sync. -/
def c2Db : Db :=
  { events := []
    syncState := [("u1",
      { next_sync_token := some "t0", last_sync_time := some 5,
        full_sync_completed := true, sync_error := none, sync_error_count := 0 })]
    nextId := 1 }

/-- An upstream that answers every page request with an empty single page and a
fresh sync token. -/
def c2Oracle : ListOracle := fun _ _ =>
  .ok { items := some [], nextPageToken := none, nextSyncToken := some "nst-1" }

/-- C2 counterexample — the engine takes no lock: a sync run for a user whose
cursor exists issues its upstream call as its **first** external operation — no
write to the sync cursor (where the claimed sync-in-progress flag would live)
precedes the work — completes successfully, and the only cursor write happens after
the work.  The cursor row itself (see `SyncStateRow`) has no in-progress field the
engine could transition.  Consequently, when two such requests race, the
interleaving in which the second request reads the cursor before the first one's
single (final) write makes the second run this identical computation: both proceed,
both succeed, and neither returns a sync-already-running error — the claim's
"exactly one proceeds, the other aborts" is false for this input. -/
theorem syncWithGoogle_unguarded_counterexample :
    (syncWithGoogle true c2Oracle 1000 c2Db "u1" {} 2).2.2 =
      [.upstreamList, .syncStateWrite] ∧
    (syncWithGoogle true c2Oracle 1000 c2Db "u1" {} 2).1.success = true ∧
    (syncWithGoogle true c2Oracle 1000 c2Db "u1" {} 2).1.errors = [] := by
  refine ⟨?_, ?_, ?_⟩ <;> decide

/-- C2 (amended) — the engine performs no mutual exclusion: every run of
`syncWithGoogle` writes the sync cursor exactly once, as its very last operation
(so no sync-in-progress transition happens "before work begins"), and every
authenticated run with a positive page budget performs upstream work regardless of
the prior cursor state — a racing second request proceeds just like the first, and
no run aborts with a sync-already-running error. -/
theorem syncWithGoogle_no_mutual_exclusion :
    (∀ (auth : Bool) (o : ListOracle) (now : Int) (db : Db) (u : String)
       (opts : SyncOptions) (fuel : Nat),
       ∃ pre, (syncWithGoogle auth o now db u opts fuel).2.2 =
           pre ++ [.syncStateWrite] ∧
         Op.syncStateWrite ∉ pre) ∧
    (∀ (o : ListOracle) (now : Int) (db : Db) (u : String) (opts : SyncOptions)
       (fuel : Nat),
       Op.upstreamList ∈ (syncWithGoogle true o now db u opts (fuel + 1)).2.2) := by
  constructor
  · intro auth o now db u opts fuel
    cases auth with
    | false => exact ⟨[], rfl, by simp⟩
    | true =>
      simp only [syncWithGoogle]
      exact ⟨_, rfl, by
        by_cases hmode : opts.fullSync ||
            (getSyncState db u).next_sync_token.isNone ||
            !(getSyncState db u).full_sync_completed <;>
          simp only [hmode, if_pos, if_neg, Bool.false_eq_true, ite_true,
            ite_false] <;>
          first
          | exact performFullSyncGo_no_syncStateWrite o now u opts fuel db
              { success := true } none
          | exact performIncrementalSyncGo_no_syncStateWrite o now u
              ((getSyncState db u).next_sync_token.getD "") opts fuel fuel db
              { success := true } none⟩
  · intro o now db u opts fuel
    simp only [syncWithGoogle]
    by_cases hmode : opts.fullSync || (getSyncState db u).next_sync_token.isNone ||
        !(getSyncState db u).full_sync_completed
    · simp only [hmode, ite_true]
      apply List.mem_append_left
      unfold performFullSync performFullSyncGo
      cases executeWithRetry (o (fullSyncReq opts now none)) with
      | error e => simp
      | ok resp =>
        obtain ⟨items, npt, nst⟩ := resp
        cases npt <;> simp
    · simp only [hmode, ite_false, Bool.false_eq_true]
      apply List.mem_append_left
      unfold performIncrementalSync performIncrementalSyncGo
      cases executeWithRetry (o (incSyncReq opts
          ((getSyncState db u).next_sync_token.getD "") none)) with
      | error e =>
        by_cases hinv : AppError.errCode e = some (.num 410) ∨
            optIncludes (AppError.errMessage e) "Sync token is no longer valid" = true
        · simp only [if_pos hinv]; simp
        · simp only [if_neg hinv]; simp
      | ok resp =>
        obtain ⟨items, npt, nst⟩ := resp
        cases npt <;> simp

/-! ### C3 — failure frame of the sync cursor -/

/-- An existing cursor row holding a sync token, for the C3 run. -/
def c3Row : SyncStateRow :=
  { next_sync_token := some "t0", last_sync_time := some 5,
    full_sync_completed := true, sync_error := none, sync_error_count := 0 }

def c3Db : Db := { events := [], syncState := [("u1", c3Row)], nextId := 1 }

/-- C3 counterexample — a failed sync run does **not** leave the stored next-sync
token unchanged: before the run the cursor holds token `"t0"`; the run fails (here:
authentication fails), and the upsert `next_sync_token = EXCLUDED.next_sync_token`
overwrites the stored token with the failed run's `null`.  (The error counter is
incremented and the message recorded, as the claim says — but the token is lost.) -/
theorem syncFailure_token_clobbered_counterexample :
    c3Db.syncState.lookup "u1" = some c3Row ∧
    c3Row.next_sync_token = some "t0" ∧
    (syncWithGoogle false (fun _ _ => .ok {}) 1000 c3Db "u1" {} 1).1.success =
      false ∧
    (syncWithGoogle false (fun _ _ => .ok {}) 1000 c3Db "u1" {} 1).2.1.syncState.lookup
        "u1" =
      some { next_sync_token := none, last_sync_time := some 5,
             full_sync_completed := true,
             sync_error := some "Failed to authenticate with Google Calendar",
             sync_error_count := 1 } := by
  refine ⟨?_, ?_, ?_, ?_⟩ <;> decide

/-- C3 (amended) — failure frame as the code implements it: when a sync run fails
for a user with an existing cursor row, the error counter is incremented and
`full_sync_completed` and `last_sync_time` keep their prior values, but the stored
next-sync token is **overwritten** with the failed run's token (the run's
`nextSyncToken`, which is `null` when the run threw), and the recorded last-error is
the thrown message for failures that threw — while a failure reported inside the
sync result overwrites the last-error with `null`. -/
theorem syncWithGoogle_failure_frame
    (auth : Bool) (o : ListOracle) (now : Int) (db : Db) (u : String)
    (opts : SyncOptions) (fuel : Nat) (r : SyncStateRow)
    (hr : db.syncState.lookup u = some r)
    (hfail : (syncWithGoogle auth o now db u opts fuel).1.success = false) :
    ∃ e2, (syncWithGoogle auth o now db u opts fuel).2.1.syncState.lookup u =
      some { next_sync_token :=
               (syncWithGoogle auth o now db u opts fuel).1.nextSyncToken
             last_sync_time := r.last_sync_time
             full_sync_completed := r.full_sync_completed
             sync_error := e2
             sync_error_count := r.sync_error_count + 1 } := by
  cases auth with
  | false =>
    refine ⟨some "Failed to authenticate with Google Calendar", ?_⟩
    simp only [syncWithGoogle, Bool.false_eq_true, ite_false]
    rw [updateSyncState_lookup_self db now u none false
      (some "Failed to authenticate with Google Calendar") r hr]
    simp
  | true =>
    refine ⟨none, ?_⟩
    simp only [syncWithGoogle, ite_true] at hfail ⊢
    by_cases hmode : (opts.fullSync || (getSyncState db u).next_sync_token.isNone ||
        !(getSyncState db u).full_sync_completed) = true
    · simp only [hmode, ite_true] at hfail ⊢
      have hsync : (performFullSync o now u opts db fuel).2.1.syncState.lookup u =
          some r := by
        rw [show (performFullSync o now u opts db fuel).2.1.syncState =
            db.syncState from
          performFullSyncGo_syncState o now u opts fuel db { success := true } none]
        exact hr
      rw [updateSyncState_lookup_self _ now u _ _ none r hsync, hfail]
      simp
    · simp only [hmode, ite_false, Bool.false_eq_true] at hfail ⊢
      have hsync : (performIncrementalSync o now u
            ((getSyncState db u).next_sync_token.getD "") opts db
            fuel).2.1.syncState.lookup u = some r := by
        rw [show (performIncrementalSync o now u
              ((getSyncState db u).next_sync_token.getD "") opts db
              fuel).2.1.syncState = db.syncState from
          performIncrementalSyncGo_syncState o now u
            ((getSyncState db u).next_sync_token.getD "") opts fuel fuel db
            { success := true } none]
        exact hr
      rw [updateSyncState_lookup_self _ now u _ _ none r hsync, hfail]
      simp

/-- C3 witness: the failure-frame theorem applied at the concrete failed run of the
counterexample. -/
theorem syncWithGoogle_failure_frame_witness :
    ∃ e2, (syncWithGoogle false (fun _ _ => .ok {}) 1000 c3Db "u1" {}
          1).2.1.syncState.lookup "u1" =
      some { next_sync_token :=
               (syncWithGoogle false (fun _ _ => .ok {}) 1000 c3Db "u1" {}
                 1).1.nextSyncToken
             last_sync_time := c3Row.last_sync_time
             full_sync_completed := c3Row.full_sync_completed
             sync_error := e2
             sync_error_count := c3Row.sync_error_count + 1 } :=
  syncWithGoogle_failure_frame false (fun _ _ => .ok {}) 1000 c3Db "u1" {} 1 c3Row
    (by decide) (by decide)

/-! ### C4 — cursor-invalidation fallback -/

/-- `performFullSync` never reads the `fullSync` flag of its options (the flag is
consulted only by `syncWithGoogle`'s mode selection), so forcing it changes
nothing. -/
theorem performFullSyncGo_fullSync_agnostic (o : ListOracle) (now : Int)
    (u : String) (opts : SyncOptions) (b : Bool) :
    ∀ (fuel : Nat) (db : Db) (acc : CalendarSyncResult) (pt : Option String),
      performFullSyncGo o now u { opts with fullSync := b } fuel db acc pt =
        performFullSyncGo o now u opts fuel db acc pt := by
  intro fuel
  induction fuel with
  | zero => intro db acc pt; rfl
  | succ n ih =>
    intro db acc pt
    simp only [performFullSyncGo]
    have hreq : fullSyncReq { opts with fullSync := b } now pt =
        fullSyncReq opts now pt := rfl
    rw [hreq]
    cases executeWithRetry (o (fullSyncReq opts now pt)) with
    | error e => rfl
    | ok resp =>
      obtain ⟨items, npt, nst⟩ := resp
      cases npt with
      | none => rfl
      | some pt2 => simp only [ih]

/-- C4 — Cursor-invalidation fallback: when the first incremental page request is
rejected with HTTP 410 or an explicit invalid-sync-token message (a
non-retryable error, so the retry executor rethrows it as-is), the incremental sync
returns exactly the result and store of a full sync run with the same options (the
`fullSync` flag the code adds is never read by `performFullSync`), rather than
surfacing the invalidation error. -/
theorem incrementalSync_fallback_to_full (o : ListOracle) (now : Int) (u : String)
    (tok : String) (opts : SyncOptions) (db : Db) (fuel : Nat) (e : JsErr)
    (h0 : o (incSyncReq opts tok none) 0 = .error e)
    (hrl : isRateLimitError e = false) (hq : isQuotaExceededError e = false)
    (ha : isAuthError e = false) (hn : isNetworkError e = false)
    (hinv : e.code = some (.num 410) ∨
      optIncludes e.message "Sync token is no longer valid" = true) :
    (performIncrementalSync o now u tok opts db (fuel + 1)).1 =
      (performFullSync o now u opts db (fuel + 1)).1 ∧
    (performIncrementalSync o now u tok opts db (fuel + 1)).2.1 =
      (performFullSync o now u opts db (fuel + 1)).2.1 := by
  have hexec : executeWithRetry (o (incSyncReq opts tok none)) = .error (.js e) := by
    simp [executeWithRetry, executeWithRetryGo, h0, hrl, hq, ha, hn]
  have hagn : performFullSync o now u { opts with fullSync := true } db (fuel + 1) =
      performFullSync o now u opts db (fuel + 1) :=
    performFullSyncGo_fullSync_agnostic o now u opts true (fuel + 1) db
      { success := true } none
  have hstep : performIncrementalSync o now u tok opts db (fuel + 1) =
      ((performFullSync o now u { opts with fullSync := true } db (fuel + 1)).1,
       (performFullSync o now u { opts with fullSync := true } db (fuel + 1)).2.1,
       .upstreamList ::
         (performFullSync o now u { opts with fullSync := true } db
           (fuel + 1)).2.2) := by
    unfold performIncrementalSync
    simp only [performIncrementalSyncGo, hexec]
    rw [if_pos (show AppError.errCode (.js e) = some (.num 410) ∨
      optIncludes (AppError.errMessage (.js e)) "Sync token is no longer valid" =
        true from hinv)]
  rw [hstep, hagn]
  exact ⟨rfl, rfl⟩

/-- The invalidation answer: HTTP 410 with Google's message. -/
def c4Err : JsErr :=
  { code := some (.num 410), message := some "Sync token is no longer valid" }

def c4Oracle : ListOracle := fun _ _ => .error c4Err

/-- C4 witness: the fallback theorem applied at a concrete cursor-invalidating
upstream. -/
theorem incrementalSync_fallback_to_full_witness :
    (performIncrementalSync c4Oracle 0 "u1" "nst-x" {} {} 1).1 =
      (performFullSync c4Oracle 0 "u1" {} {} 1).1 ∧
    (performIncrementalSync c4Oracle 0 "u1" "nst-x" {} {} 1).2.1 =
      (performFullSync c4Oracle 0 "u1" {} {} 1).2.1 :=
  incrementalSync_fallback_to_full c4Oracle 0 "u1" "nst-x" {} {} 0 c4Err rfl
    (by decide) (by decide) (by decide) (by decide) (Or.inl rfl)

end CalendarApp
